import Mathlib

/-!
Verification of the ProTruckLogistics blog-generation pipeline
(`generate_blogs.py`).  The script file contains two concatenated
revisions of the same program; Python semantics make the second
revision's definitions the ones bound when the final `main()` call runs,
so the embedding below follows the second revision and, where a claim
depends on behaviour that differs between the two revisions (the
structured-scraping topic tier), both revisions are embedded side by
side.

External effects (OpenAI chat/image calls, `html2text`, wall-clock
time, `random`) are modelled as explicit oracle inputs; file and FTP
state is passed explicitly.  Python string primitives used by the
script (`lower`, `strip`, `split`, `replace`, `in`) are modelled by
structurally recursive functions over the character list of a `String`.
-/

deriving instance DecidableEq for Except

namespace BlogBot

/-- Model of Python `str.lower()` (ASCII case folding, which is all the
script's keyword tables use). -/
def lowerStr (s : String) : String := ⟨s.data.map Char.toLower⟩

/-- `charListPrefix p l` is true when `p` is a prefix of `l`
(character-level helper for substring search). -/
def charListPrefix : List Char → List Char → Bool
  | [], _ => true
  | _ :: _, [] => false
  | a :: as, b :: bs => a == b && charListPrefix as bs

/-- `charListContains pat l` is true when `pat` occurs contiguously in `l`. -/
def charListContains (pat : List Char) : List Char → Bool
  | [] => charListPrefix pat []
  | l@(_ :: rest) => charListPrefix pat l || charListContains pat rest

/-- Model of the Python membership test `pat in s` on strings. -/
def strContains (s pat : String) : Bool := charListContains pat.data s.data

/-- Model of Python `text.split(sep)[0]` for a non-empty separator: the
prefix of the string before the first occurrence of `sep`. -/
def takeUntilSep (sep : List Char) : List Char → List Char
  | [] => []
  | l@(c :: rest) => if charListPrefix sep l then [] else c :: takeUntilSep sep rest

/-- First paragraph of a text, as the script computes it:
`text_content.split('\n\n')[0]`. -/
def firstPara (s : String) : String := ⟨takeUntilSep "\n\n".data s.data⟩

/-- Model of Python `s.replace('\n', ' ')` (single-character replacement). -/
def replaceNl (s : String) : String :=
  ⟨s.data.map (fun c => if c == '\n' then ' ' else c)⟩

/-- Whitespace test used by `strip`. -/
def isWs (c : Char) : Bool := c == ' ' || c == '\t' || c == '\n' || c == '\r'

/-- Model of Python `s.strip()`. -/
def stripStr (s : String) : String :=
  ⟨((s.data.dropWhile isWs).reverse.dropWhile isWs).reverse⟩

/-- A topic descriptor, as produced by `get_current_logistics_topics`:
`title` is the only field every producer guarantees; `summary` and
`relevance` default to the empty string; `category` is attached only by
the category-seeded tier. -/
structure Topic where
  title : String
  summary : String
  relevance : String
  category : Option String
deriving DecidableEq

/-- The keyword → URL table of `get_relevant_image` (second revision,
the operative definition), in source dictionary order. -/
def imagesTable : List (String × String) :=
  [("fuel", "https://images.unsplash.com/photo-1545249390-6bdfa286032f?ixlib=rb-1.2.1&auto=format&fit=crop&w=1350&q=80"),
   ("electric", "https://images.unsplash.com/photo-1593941707882-a5bba13938c2?ixlib=rb-1.2.1&auto=format&fit=crop&w=1350&q=80"),
   ("ai", "https://images.unsplash.com/photo-1677442136019-21780ecad995?ixlib=rb-1.2.1&auto=format&fit=crop&w=1350&q=80"),
   ("driver", "https://images.unsplash.com/photo-1586528116311-ad8dd3c8310d?ixlib=rb-1.2.1&auto=format&fit=crop&w=1350&q=80"),
   ("warehouse", "https://images.unsplash.com/photo-1553413077-190dd305871c?ixlib=rb-1.2.1&auto=format&fit=crop&w=1350&q=80"),
   ("supply chain", "https://images.unsplash.com/photo-1566633806327-68e152aaf26d?ixlib=rb-1.2.1&auto=format&fit=crop&w=1350&q=80"),
   ("technology", "https://images.unsplash.com/photo-1518770660439-4636190af475?ixlib=rb-1.2.1&auto=format&fit=crop&w=1350&q=80"),
   ("truck", "https://images.unsplash.com/photo-1519003722824-194d4455a60c?ixlib=rb-4.0.3"),
   ("delivery", "https://images.unsplash.com/photo-1580674684081-7617fbf3d745?ixlib=rb-1.2.1&auto=format&fit=crop&w=1350&q=80"),
   ("safety", "https://images.unsplash.com/photo-1577041677443-8bbdfd8cce62?ixlib=rb-4.0.3"),
   ("sustainability", "https://images.unsplash.com/photo-1592833159067-4173416fc26a?ixlib=rb-1.2.1&auto=format&fit=crop&w=1350&q=80"),
   ("logistics", "https://images.unsplash.com/photo-1494412574643-ff11b0a5c1c3?ixlib=rb-4.0.3"),
   ("regulations", "https://images.unsplash.com/photo-1589829545856-d10d557cf95f?ixlib=rb-1.2.1&auto=format&fit=crop&w=1350&q=80"),
   ("e-commerce", "https://images.unsplash.com/photo-1584536902949-fae88d5950dc?ixlib=rb-1.2.1&auto=format&fit=crop&w=1350&q=80"),
   ("global", "https://images.unsplash.com/photo-1451187580459-43490279c0fa?ixlib=rb-1.2.1&auto=format&fit=crop&w=1350&q=80"),
   ("automation", "https://images.unsplash.com/photo-1563203369-26f2e4a5ccf7?ixlib=rb-1.2.1&auto=format&fit=crop&w=1350&q=80"),
   ("fleet", "https://images.unsplash.com/photo-1588411393236-d2827123e3e6?ixlib=rb-1.2.1&auto=format&fit=crop&w=1350&q=80")]

/-- The `images["logistics"]` entry, used as the categorised financial
fallback and as the final default. -/
def logisticsUrl : String :=
  "https://images.unsplash.com/photo-1494412574643-ff11b0a5c1c3?ixlib=rb-4.0.3"

/-- The `images["sustainability"]` entry. -/
def sustainabilityUrl : String :=
  "https://images.unsplash.com/photo-1592833159067-4173416fc26a?ixlib=rb-1.2.1&auto=format&fit=crop&w=1350&q=80"

/-- The `images["technology"]` entry. -/
def technologyUrl : String :=
  "https://images.unsplash.com/photo-1518770660439-4636190af475?ixlib=rb-1.2.1&auto=format&fit=crop&w=1350&q=80"

/-- The `images["driver"]` entry. -/
def driverUrl : String :=
  "https://images.unsplash.com/photo-1586528116311-ad8dd3c8310d?ixlib=rb-1.2.1&auto=format&fit=crop&w=1350&q=80"

/-- `get_relevant_image` (second revision, lines 1358-1413): first
keyword whose text occurs in the lowercased title wins; otherwise four
categorised keyword groups are tried; otherwise the default logistics
image.  The function is pure — it performs no network call and has no
failure path. -/
def get_relevant_image (topic : Topic) : String :=
  let topicLower := lowerStr topic.title
  match imagesTable.find? (fun p => strContains topicLower p.1) with
  | some p => p.2
  | none =>
    if ["price", "cost", "financial", "economic", "market"].any
        (fun w => strContains topicLower w) then logisticsUrl
    else if ["green", "environment", "carbon", "emission"].any
        (fun w => strContains topicLower w) then sustainabilityUrl
    else if ["autonomous", "robot", "automation", "digital"].any
        (fun w => strContains topicLower w) then technologyUrl
    else if ["driver", "trucker", "operator", "personnel"].any
        (fun w => strContains topicLower w) then driverUrl
    else logisticsUrl

/-- Every URL in the keyword table is non-empty. -/
theorem imagesTable_urls_nonempty : ∀ p ∈ imagesTable, 0 < p.2.length := by
  decide

/-- C5: `get_relevant_image` never raises (it is a total function of the
topic) and never returns an empty value: every branch yields one of the
fixed non-empty URLs, ultimately the static default. -/
theorem get_relevant_image_nonempty (topic : Topic) :
    0 < (get_relevant_image topic).length := by
  unfold get_relevant_image
  dsimp only
  split
  · next p hp =>
    exact imagesTable_urls_nonempty p (List.mem_of_find?_eq_some hp)
  · split
    · decide
    · split
      · decide
      · split
        · decide
        · split
          · decide
          · decide

/-- The fields of the `meta` sub-dictionary of a post. -/
structure PostMeta where
  description : String
  keywords : String
deriving DecidableEq

/-- A fully assembled post, as built by `generate_blog_post`. -/
structure Post where
  id : Nat
  title : String
  excerpt : String
  date : String
  category : String
  author : String
  author_position : String
  author_bio : String
  author_image : String
  read_time : String
  content : String
  image : String
  meta : PostMeta
deriving DecidableEq

/-- An entry of `index.json`: the simplified record that
`update_blog_index` builds for each post. -/
structure IndexEntry where
  id : Nat
  title : String
  excerpt : String
  date : String
  category : String
  author : String
  read_time : String
  image : String
deriving DecidableEq

/-- The `index_post` dictionary built inside the merge loop of
`update_blog_index`. -/
def toIndexEntry (p : Post) : IndexEntry :=
  { id := p.id, title := p.title, excerpt := p.excerpt, date := p.date,
    category := p.category, author := p.author, read_time := p.read_time,
    image := p.image }

/-- The merge loop of `update_blog_index`: for each post in the batch,
append its index entry unless some entry with the same id is already
present in the accumulated list. -/
def addPosts (allPosts : List IndexEntry) : List Post → List IndexEntry
  | [] => allPosts
  | p :: rest =>
    if allPosts.any (fun q => q.id == p.id) then addPosts allPosts rest
    else addPosts (allPosts ++ [toIndexEntry p]) rest

/-- One step of the stable descending insertion modelling Python's
stable `list.sort(key=..., reverse=True)`: a new element is placed
after every element whose id is greater than or equal to its own. -/
def insertDesc (e : IndexEntry) : List IndexEntry → List IndexEntry
  | [] => [e]
  | x :: xs => if e.id ≤ x.id then x :: insertDesc e xs else e :: x :: xs

/-- Left fold of `insertDesc`, inserting the elements in list order. -/
def insertAll : List IndexEntry → List IndexEntry → List IndexEntry
  | acc, [] => acc
  | acc, e :: rest => insertAll (insertDesc e acc) rest

/-- `all_posts.sort(key=lambda x: x["id"], reverse=True)`: stable sort
by id, descending. -/
def sortDesc (l : List IndexEntry) : List IndexEntry := insertAll [] l

/-- The pure content of `update_blog_index` once the existing entries
have been read: merge the batch into the prior entries, then sort by id
descending. -/
def mergeIndex (prior : List IndexEntry) (posts : List Post) : List IndexEntry :=
  sortDesc (addPosts prior posts)

/-- The states the on-disk `index.json` can be in when
`update_blog_index` reads it. -/
inductive IndexFile where
  /-- the file does not exist (`index_path.exists()` is false) -/
  | missing : IndexFile
  /-- the file exists but `json.load` raises `JSONDecodeError` -/
  | corrupt : IndexFile
  /-- the file holds valid JSON whose top level is not an array -/
  | notArray : IndexFile
  /-- the file holds a JSON array of entries -/
  | stored (entries : List IndexEntry) : IndexFile
deriving DecidableEq

/-- The uncaught Python exceptions the merge can raise. -/
inductive MergeError where
  /-- `TypeError`/`AttributeError` raised when `all_posts` is not a
  list: every non-list JSON value either fails at `p["id"]` while the
  merge loop iterates it (strings, non-empty objects), fails to iterate
  at all (numbers, booleans, null), or lacks the `.sort` method used
  after the loop (empty objects, empty strings).  None of these is a
  `json.JSONDecodeError`, the only exception `update_blog_index`
  catches. -/
  | typeError : MergeError
deriving DecidableEq

/-- `update_blog_index` (second revision, lines 1656-1699), with the
file-reading prologue made explicit: a missing file and a file whose
parse raises `JSONDecodeError` both start the merge from an empty list;
valid JSON that is not an array is bound to `all_posts` unchanged and
makes the subsequent merge code raise. -/
def update_blog_index (file : IndexFile) (posts : List Post) :
    Except MergeError (List IndexEntry) :=
  match file with
  | .missing => .ok (mergeIndex [] posts)
  | .corrupt => .ok (mergeIndex [] posts)
  | .notArray => .error .typeError
  | .stored entries => .ok (mergeIndex entries posts)

/-- Inserting distributes over the accumulated list as a permutation. -/
theorem insertDesc_perm (e : IndexEntry) (l : List IndexEntry) :
    (insertDesc e l).Perm (e :: l) := by
  induction l with
  | nil => simp [insertDesc]
  | cons x xs ih =>
    unfold insertDesc
    split
    · exact ((ih.cons x).trans (List.Perm.swap e x xs)).symm.symm
    · exact List.Perm.refl _

/-- `insertAll acc l` is a permutation of `acc ++ l`. -/
theorem insertAll_perm (l acc : List IndexEntry) :
    (insertAll acc l).Perm (acc ++ l) := by
  induction l generalizing acc with
  | nil => simp [insertAll]
  | cons e rest ih =>
    have h1 : insertAll acc (e :: rest) = insertAll (insertDesc e acc) rest := rfl
    rw [h1]
    exact (ih (insertDesc e acc)).trans
      (((insertDesc_perm e acc).append_right rest).trans List.perm_middle.symm)

/-- The sort is a permutation of its input. -/
theorem sortDesc_perm (l : List IndexEntry) : (sortDesc l).Perm l := by
  simpa using insertAll_perm l []

/-- Descending (non-strict) sortedness by id. -/
def SortedDesc (l : List IndexEntry) : Prop :=
  l.Pairwise (fun a b => b.id ≤ a.id)

/-- Membership in an insertion. -/
theorem mem_insertDesc {x e : IndexEntry} {l : List IndexEntry}
    (h : x ∈ insertDesc e l) : x = e ∨ x ∈ l := by
  have := (insertDesc_perm e l).mem_iff.mp h
  simpa using this

/-- Inserting preserves descending sortedness. -/
theorem insertDesc_sorted {l : List IndexEntry} (e : IndexEntry)
    (h : SortedDesc l) : SortedDesc (insertDesc e l) := by
  induction l with
  | nil => simp [insertDesc, SortedDesc]
  | cons x xs ih =>
    have hx : ∀ y ∈ xs, y.id ≤ x.id := by
      intro y hy
      exact (List.pairwise_cons.mp h).1 y hy
    have hxs : SortedDesc xs := (List.pairwise_cons.mp h).2
    unfold insertDesc
    split
    · next hle =>
      refine List.pairwise_cons.mpr ⟨?_, ih hxs⟩
      intro y hy
      rcases mem_insertDesc hy with rfl | hy'
      · exact hle
      · exact hx y hy'
    · next hgt =>
      refine List.pairwise_cons.mpr ⟨?_, h⟩
      intro y hy
      have hxe : x.id ≤ e.id := Nat.le_of_lt (Nat.lt_of_not_le hgt)
      rcases List.mem_cons.mp hy with rfl | hy'
      · exact hxe
      · exact Nat.le_trans (hx y hy') hxe

/-- `insertAll` starting from a sorted accumulator yields a sorted list. -/
theorem insertAll_sorted (l : List IndexEntry) :
    ∀ acc, SortedDesc acc → SortedDesc (insertAll acc l) := by
  induction l with
  | nil => intro acc h; exact h
  | cons e rest ih =>
    intro acc h
    exact ih _ (insertDesc_sorted e h)

/-- The sort output is sorted descending by id. -/
theorem sortDesc_sorted (l : List IndexEntry) : SortedDesc (sortDesc l) :=
  insertAll_sorted l [] (by simp [SortedDesc])

/-- Inserting an element no larger than everything present appends it. -/
theorem insertDesc_append {e : IndexEntry} {acc : List IndexEntry}
    (h : ∀ x ∈ acc, e.id ≤ x.id) : insertDesc e acc = acc ++ [e] := by
  induction acc with
  | nil => simp [insertDesc]
  | cons x xs ih =>
    have hx : e.id ≤ x.id := h x (List.mem_cons_self x xs)
    simp [insertDesc, hx, ih (fun y hy => h y (List.mem_cons_of_mem x hy))]

/-- An already sorted list is a fixed point of the sort. -/
theorem insertAll_of_sorted (l : List IndexEntry) :
    ∀ acc, SortedDesc (acc ++ l) → insertAll acc l = acc ++ l := by
  induction l with
  | nil => intro acc _; simp [insertAll]
  | cons e rest ih =>
    intro acc h
    have hcross : ∀ x ∈ acc, ∀ y ∈ e :: rest, y.id ≤ x.id :=
      (List.pairwise_append.mp h).2.2
    have he : ∀ x ∈ acc, e.id ≤ x.id := fun x hx =>
      hcross x hx e (List.mem_cons_self e rest)
    have hins : insertDesc e acc = acc ++ [e] := insertDesc_append he
    have hsort : SortedDesc ((acc ++ [e]) ++ rest) := by
      simpa [List.append_assoc] using h
    calc insertAll acc (e :: rest)
        = insertAll (acc ++ [e]) rest := by rw [insertAll, hins]
      _ = (acc ++ [e]) ++ rest := ih _ hsort
      _ = acc ++ e :: rest := by simp [List.append_assoc]

/-- Sorting a sorted list leaves it unchanged. -/
theorem sortDesc_of_sorted {l : List IndexEntry} (h : SortedDesc l) :
    sortDesc l = l := by
  simpa using insertAll_of_sorted l [] (by simpa using h)

/-- The merge loop only ever appends to the accumulated entries. -/
theorem addPosts_eq_append (posts : List Post) :
    ∀ all : List IndexEntry, ∃ ext, addPosts all posts = all ++ ext := by
  induction posts with
  | nil => intro all; exact ⟨[], by simp [addPosts]⟩
  | cons p rest ih =>
    intro all
    unfold addPosts
    split
    · exact ih all
    · rcases ih (all ++ [toIndexEntry p]) with ⟨ext, hext⟩
      exact ⟨toIndexEntry p :: ext, by simp [hext]⟩

/-- Whatever holds of some accumulated entry keeps holding as the merge
loop appends. -/
theorem any_addPosts_of_any {pred : IndexEntry → Bool} (posts : List Post)
    {all : List IndexEntry} (h : all.any pred = true) :
    (addPosts all posts).any pred = true := by
  rcases addPosts_eq_append posts all with ⟨ext, hext⟩
  rw [hext, List.any_append, h, Bool.true_or]

/-- After the merge loop, every batch post has an entry with its id. -/
theorem addPosts_id_present (p : Post) (posts : List Post) (hp : p ∈ posts) :
    ∀ all : List IndexEntry,
      (addPosts all posts).any (fun q => q.id == p.id) = true := by
  induction posts with
  | nil => cases hp
  | cons p0 rest ih =>
    intro all
    rcases List.mem_cons.mp hp with rfl | hmem
    · unfold addPosts
      split
      · next hin => exact any_addPosts_of_any rest hin
      · refine any_addPosts_of_any rest ?_
        simp [toIndexEntry]
    · unfold addPosts
      split
      · exact ih hmem all
      · exact ih hmem _

/-- If every batch post already has an entry with its id, the merge
loop changes nothing. -/
theorem addPosts_all_present {posts : List Post} {all : List IndexEntry}
    (h : ∀ p ∈ posts, all.any (fun q => q.id == p.id) = true) :
    addPosts all posts = all := by
  induction posts with
  | nil => rfl
  | cons p rest ih =>
    have hp := h p (List.mem_cons_self p rest)
    unfold addPosts
    rw [hp]
    simp only [if_true]
    exact ih (fun q hq => h q (List.mem_cons_of_mem p hq))

/-- The merge loop preserves uniqueness of ids. -/
theorem addPosts_nodup (posts : List Post) :
    ∀ all : List IndexEntry, (all.map IndexEntry.id).Nodup →
      ((addPosts all posts).map IndexEntry.id).Nodup := by
  induction posts with
  | nil => intro all h; exact h
  | cons p rest ih =>
    intro all h
    unfold addPosts
    split
    · exact ih all h
    · next hany =>
      refine ih _ ?_
      have hnotin : ∀ q ∈ all, ¬ q.id = p.id := by
        intro q hq hqp
        exact hany (List.any_eq_true.mpr ⟨q, hq, by simpa using hqp⟩)
      simp only [List.map_append, toIndexEntry, List.map_cons, List.map_nil]
      rw [List.nodup_append]
      refine ⟨h, List.nodup_singleton _, ?_⟩
      intro a ha hb
      simp only [List.mem_singleton] at hb
      rcases List.mem_map.mp ha with ⟨q, hq, rfl⟩
      exact hnotin q hq (by simpa using hb)

/-- Every batch post's id has an entry in the merged, sorted index. -/
theorem mergeIndex_id_present (prior : List IndexEntry) {p : Post}
    {posts : List Post} (hp : p ∈ posts) :
    ∃ q ∈ mergeIndex prior posts, q.id = p.id := by
  have h := addPosts_id_present p posts hp prior
  rcases List.any_eq_true.mp h with ⟨q, hq, hid⟩
  exact ⟨q, (sortDesc_perm (addPosts prior posts)).mem_iff.mpr hq,
    by simpa using hid⟩

/-- C3 (amended): when the prior index has pairwise-distinct ids, one
merge of a batch yields an index with each id occurring exactly once,
strictly sorted by id descending, and a second merge of the identical
batch returns the index unchanged. -/
theorem mergeIndex_idempotent (prior : List IndexEntry) (batch : List Post)
    (h : (prior.map IndexEntry.id).Nodup) :
    mergeIndex (mergeIndex prior batch) batch = mergeIndex prior batch
    ∧ ((mergeIndex prior batch).map IndexEntry.id).Nodup
    ∧ (mergeIndex prior batch).Pairwise (fun a b => b.id < a.id) := by
  have hperm : (mergeIndex prior batch).Perm (addPosts prior batch) :=
    sortDesc_perm _
  have hnodupA : ((addPosts prior batch).map IndexEntry.id).Nodup :=
    addPosts_nodup batch prior h
  have hnodup : ((mergeIndex prior batch).map IndexEntry.id).Nodup :=
    (hperm.map IndexEntry.id).nodup_iff.mpr hnodupA
  have hsorted : SortedDesc (mergeIndex prior batch) := sortDesc_sorted _
  refine ⟨?_, hnodup, ?_⟩
  · have hpresent : ∀ p ∈ batch,
        (mergeIndex prior batch).any (fun q => q.id == p.id) = true := by
      intro p hp
      rcases mergeIndex_id_present prior hp with ⟨q, hq, hid⟩
      exact List.any_eq_true.mpr ⟨q, hq, by simpa using hid⟩
    show sortDesc (addPosts (mergeIndex prior batch) batch) = _
    rw [addPosts_all_present hpresent]
    exact sortDesc_of_sorted hsorted
  · have hne : (mergeIndex prior batch).Pairwise (fun a b => a.id ≠ b.id) :=
      (List.pairwise_map).mp hnodup
    exact (hsorted.and hne).imp
      (fun hab => Nat.lt_of_le_of_ne hab.1 (Ne.symm hab.2))

/-- A prior index that already carries two entries with the same id. -/
def dupPrior : List IndexEntry :=
  [{ id := 5, title := "first entry", excerpt := "", date := "", category := "",
     author := "", read_time := "", image := "" },
   { id := 5, title := "second entry", excerpt := "", date := "", category := "",
     author := "", read_time := "", image := "" }]

/-- A one-post batch with a fresh id. -/
def dupBatch : List Post :=
  [{ id := 7, title := "t7", excerpt := "e7", date := "d", category := "c",
     author := "a", author_position := "p", author_bio := "b",
     author_image := "i", read_time := "8 min read", content := "body",
     image := "url", meta := { description := "d", keywords := "k" } }]

/-- C3 (counterexample): over an arbitrary prior index state the claim
fails — a prior index carrying id 5 twice still carries it twice after
two merges of the identical batch, so not every id appears exactly
once. -/
theorem mergeIndex_dup_id_counterexample :
    ((mergeIndex (mergeIndex dupPrior dupBatch) dupBatch).map IndexEntry.id)
      = [7, 5, 5]
    ∧ ¬ ((mergeIndex (mergeIndex dupPrior dupBatch) dupBatch).map
          IndexEntry.id).Nodup := by
  decide

/-- C3 witness data: a prior index with distinct ids. -/
theorem mergeIndex_idempotent_witness :
    ((dupPrior.take 1).map IndexEntry.id).Nodup
    ∧ mergeIndex (mergeIndex (dupPrior.take 1) dupBatch) dupBatch
        = mergeIndex (dupPrior.take 1) dupBatch :=
  ⟨by decide, (mergeIndex_idempotent (dupPrior.take 1) dupBatch (by decide)).1⟩

/-- C4: a batch of one already-indexed post and one fresh post merges,
in either batch order, to exactly the prior entries (each unchanged,
none dropped) plus the single new entry, up to the final descending
re-sort (a permutation). -/
theorem mergeIndex_one_new (prior : List IndexEntry) (pOld pNew : Post)
    (hold : ∃ q ∈ prior, q.id = pOld.id)
    (hnew : ∀ q ∈ prior, q.id ≠ pNew.id) :
    (mergeIndex prior [pOld, pNew]).Perm (prior ++ [toIndexEntry pNew])
    ∧ (mergeIndex prior [pNew, pOld]).Perm (prior ++ [toIndexEntry pNew]) := by
  have hanyOld : prior.any (fun q => q.id == pOld.id) = true := by
    rcases hold with ⟨q, hq, he⟩
    exact List.any_eq_true.mpr ⟨q, hq, by simpa using he⟩
  have hanyNew : prior.any (fun q => q.id == pNew.id) = false := by
    rw [List.any_eq_false]
    intro q hq
    simpa using hnew q hq
  constructor
  · have hadd : addPosts prior [pOld, pNew] = prior ++ [toIndexEntry pNew] := by
      simp [addPosts, hanyOld, hanyNew]
    show (sortDesc (addPosts prior [pOld, pNew])).Perm _
    rw [hadd]
    exact sortDesc_perm _
  · have happ : (prior ++ [toIndexEntry pNew]).any
        (fun q => q.id == pOld.id) = true := by
      rw [List.any_append, hanyOld, Bool.true_or]
    have hadd : addPosts prior [pNew, pOld] = prior ++ [toIndexEntry pNew] := by
      simp [addPosts, hanyNew, happ]
    show (sortDesc (addPosts prior [pNew, pOld])).Perm _
    rw [hadd]
    exact sortDesc_perm _

/-- A post whose id 5 is already carried by `dupPrior.take 1`. -/
def oldPost : Post :=
  { id := 5, title := "old", excerpt := "e", date := "d", category := "c",
    author := "a", author_position := "p", author_bio := "b",
    author_image := "i", read_time := "7 min read", content := "x",
    image := "u", meta := { description := "d", keywords := "k" } }

/-- C4 witness: concrete one-old-one-new merge. -/
theorem mergeIndex_one_new_witness :
    (∃ q ∈ dupPrior.take 1, q.id = oldPost.id)
    ∧ (∀ q ∈ dupPrior.take 1, q.id ≠ (dupBatch.headD oldPost).id)
    ∧ (mergeIndex (dupPrior.take 1) [oldPost, dupBatch.headD oldPost]).Perm
        (dupPrior.take 1 ++ [toIndexEntry (dupBatch.headD oldPost)]) :=
  ⟨by decide, by decide,
   (mergeIndex_one_new (dupPrior.take 1) oldPost (dupBatch.headD oldPost)
     (by decide) (by decide)).1⟩

/-- C9 (counterexample): an index file holding valid JSON that is not
an array is not treated as empty — the merge raises instead of
completing. -/
theorem update_blog_index_notArray_raises :
    update_blog_index IndexFile.notArray dupBatch
      = Except.error MergeError.typeError := rfl

/-- C9 (amended): a missing index file, or one whose contents fail to
parse as JSON, is treated exactly like an empty stored index and the
merge completes without raising; valid JSON that is not an array makes
the merge raise. -/
theorem update_blog_index_tolerant (posts : List Post) :
    update_blog_index IndexFile.missing posts
      = update_blog_index (IndexFile.stored []) posts
    ∧ update_blog_index IndexFile.corrupt posts
      = update_blog_index (IndexFile.stored []) posts
    ∧ (update_blog_index IndexFile.missing posts).isOk = true
    ∧ (update_blog_index IndexFile.corrupt posts).isOk = true
    ∧ update_blog_index IndexFile.notArray posts
      = Except.error MergeError.typeError :=
  ⟨rfl, rfl, rfl, rfl, rfl⟩

/-- A local artifact handed to the FTP uploader.  `uploadOk` records
whether the `ftp.storbinary` transfer for this file succeeds or raises
(the simulated transport error). -/
structure LocalFile where
  name : String
  uploadOk : Bool
deriving DecidableEq

/-- Behaviour of the remote side for one run: whether the
`ftplib.FTP(...)` login succeeds, whether `ftp.cwd(FTP_BLOG_DIR)`
succeeds directly, and whether the component-by-component `mkd`/`cwd`
recovery succeeds. -/
structure FtpConfig where
  connectOk : Bool
  cwdOk : Bool
  mkdirOk : Bool
deriving DecidableEq

/-- Observable remote state: the files stored on the host and the
number of connection attempts made. -/
structure FtpState where
  files : List String
  connects : Nat
deriving DecidableEq

/-- The upload loop of `upload_files_to_ftp`.  The loop body runs
inside the function's single outer `try`, so the first `storbinary`
that raises leaves the loop and the whole call returns `False`;
files stored before the failure stay on the host. -/
def uploadLoop : List LocalFile → FtpState → Bool × FtpState
  | [], st => (true, st)
  | f :: rest, st =>
    if f.uploadOk then uploadLoop rest { st with files := st.files ++ [f.name] }
    else (false, st)

/-- `upload_files_to_ftp` (second revision, lines 1701-1739): connect,
enter (or create) the blog directory, upload each file in turn; any
exception anywhere is caught by the one outer handler and turns into a
`False` return, with the connection closed by the `with` block. -/
def upload_files_to_ftp (files : List LocalFile) (cfg : FtpConfig)
    (st : FtpState) : Bool × FtpState :=
  let st1 : FtpState := { st with connects := st.connects + 1 }
  if cfg.connectOk then
    if cfg.cwdOk then uploadLoop files st1
    else if cfg.mkdirOk then uploadLoop files st1
    else (false, st1)
  else (false, st1)

/-- `upload_blog_files` (second revision, lines 1741-1753): with no
local files it returns `False` immediately, before any FTP call;
otherwise it defers to `upload_files_to_ftp`. -/
def upload_blog_files (files : List LocalFile) (cfg : FtpConfig)
    (st : FtpState) : Bool × FtpState :=
  if files.isEmpty then (false, st)
  else upload_files_to_ftp files cfg st

/-- The loop consumes a prefix of successful uploads and stops at the
first failing file. -/
theorem uploadLoop_failure (f : LocalFile) (rest : List LocalFile)
    (hf : f.uploadOk = false) :
    ∀ (pre : List LocalFile) (st : FtpState), (∀ g ∈ pre, g.uploadOk = true) →
      uploadLoop (pre ++ f :: rest) st
        = (false, { st with files := st.files ++ pre.map LocalFile.name }) := by
  intro pre
  induction pre with
  | nil =>
    intro st _
    simp [uploadLoop, hf]
  | cons g gs ih =>
    intro st hpre
    have hg : g.uploadOk = true := hpre g (List.mem_cons_self g gs)
    have hgs : ∀ x ∈ gs, x.uploadOk = true :=
      fun x hx => hpre x (List.mem_cons_of_mem g hx)
    show uploadLoop (g :: (gs ++ f :: rest)) st = _
    rw [uploadLoop, hg]
    simp only [if_true]
    rw [ih _ hgs]
    simp [List.append_assoc]

/-- C2 (amended): when the connection and directory change succeed and
one file's transfer raises, `upload_files_to_ftp` returns `False`, the
files uploaded before the failing one remain on the remote host, and no
later file is attempted — the failure aborts the remainder of the
uploads instead of skipping just that file. -/
theorem upload_files_to_ftp_aborts (pre : List LocalFile) (f : LocalFile)
    (rest : List LocalFile) (cfg : FtpConfig) (st : FtpState)
    (hpre : ∀ g ∈ pre, g.uploadOk = true) (hf : f.uploadOk = false)
    (hcon : cfg.connectOk = true) (hcwd : cfg.cwdOk = true) :
    upload_files_to_ftp (pre ++ f :: rest) cfg st
      = (false, { files := st.files ++ pre.map LocalFile.name,
                  connects := st.connects + 1 }) := by
  unfold upload_files_to_ftp
  rw [hcon, hcwd]
  simp only [if_true]
  exact uploadLoop_failure f rest hf pre _ hpre

/-- C2 (counterexample): three files, the middle one failing.  The
claim says the third file is still attempted and present afterwards;
the code leaves only the first file on the host and reports failure. -/
theorem upload_files_to_ftp_counterexample :
    (upload_files_to_ftp
        [⟨"post-1.html", true⟩, ⟨"1.json", false⟩, ⟨"index.json", true⟩]
        ⟨true, true, true⟩ ⟨[], 0⟩).1 = false
    ∧ (upload_files_to_ftp
        [⟨"post-1.html", true⟩, ⟨"1.json", false⟩, ⟨"index.json", true⟩]
        ⟨true, true, true⟩ ⟨[], 0⟩).2.files = ["post-1.html"]
    ∧ "index.json" ∉ (upload_files_to_ftp
        [⟨"post-1.html", true⟩, ⟨"1.json", false⟩, ⟨"index.json", true⟩]
        ⟨true, true, true⟩ ⟨[], 0⟩).2.files := by
  decide

/-- C2 witness: the abort lemma applied to the same three files. -/
theorem upload_files_to_ftp_aborts_witness :
    upload_files_to_ftp
        [⟨"post-1.html", true⟩, ⟨"1.json", false⟩, ⟨"index.json", true⟩]
        ⟨true, true, true⟩ ⟨[], 0⟩
      = (false, ⟨["post-1.html"], 1⟩) :=
  upload_files_to_ftp_aborts [⟨"post-1.html", true⟩] ⟨"1.json", false⟩
    [⟨"index.json", true⟩] ⟨true, true, true⟩ ⟨[], 0⟩ (by decide) rfl rfl rfl

/-- C10: with no local files, `upload_blog_files` reports failure and
performs no remote interaction at all — the remote state, including the
count of connection attempts, is untouched. -/
theorem upload_blog_files_empty (cfg : FtpConfig) (st : FtpState) :
    upload_blog_files [] cfg st = (false, st) := rfl

/-- An entry of the static `AUTHORS` table. -/
structure Author where
  name : String
  position : String
  bio : String
  image : String
deriving DecidableEq

/-- The `AUTHORS` table of the script. -/
def AUTHORS : List Author :=
  [{ name := "John Smith", position := "Logistics Specialist",
     bio := "John has over 15 years of experience in the logistics industry, specializing in supply chain optimization and transportation management.",
     image := "https://images.unsplash.com/photo-1472099645785-5658abf4ff4e?ixlib=rb-4.0.3" },
   { name := "Sarah Johnson", position := "Transportation Analyst",
     bio := "Sarah is an expert in transportation economics and regulatory compliance with a background in both private sector logistics and government oversight.",
     image := "https://images.unsplash.com/photo-1494790108377-be9c29b29330?ixlib=rb-4.0.3" },
   { name := "Michael Chen", position := "Technology Director",
     bio := "Michael specializes in logistics technology integration, helping companies leverage AI, IoT, and blockchain solutions to optimize their supply chains.",
     image := "https://images.unsplash.com/photo-1560250097-0b93528c311a?ixlib=rb-4.0.3" }]

/-- The `BLOG_CATEGORIES` table of the script (identical in both
revisions). -/
def BLOG_CATEGORIES : List String :=
  ["Industry Trends", "Market Analysis", "Economic Outlook", "Logistics Insights",
   "Supply Chain Management", "Warehousing", "Inventory Management", "Last-Mile Delivery",
   "Cross-Docking", "Intermodal Transportation", "Freight Forwarding", "Order Fulfillment",
   "Driver Tips", "Driver Wellness", "Driver Recruitment", "Driver Retention",
   "Owner-Operator Resources", "Career Development", "Road Life", "Driver Stories",
   "Sustainability", "Green Logistics", "Carbon Reduction", "Alternative Fuels",
   "Environmental Compliance", "Eco-Friendly Practices", "Electric Vehicles", "Renewable Energy",
   "Technology Trends", "AI & Automation", "Telematics", "Blockchain in Logistics",
   "IoT Solutions", "Data Analytics", "Digital Transformation", "Route Optimization",
   "Warehouse Automation", "Transportation Management Systems", "Fleet Tech",
   "Safety", "Regulations", "Compliance Updates", "Risk Management",
   "HOS Regulations", "DOT Compliance", "FMCSA Updates", "Insurance Insights",
   "Security Measures", "Accident Prevention", "Cargo Security",
   "Fleet Management", "Maintenance Tips", "Vehicle Selection", "Asset Utilization",
   "Fleet Efficiency", "Fuel Management", "Preventative Maintenance", "Equipment Upgrades",
   "Business Growth", "Financial Management", "Strategic Planning", "Competitive Advantage",
   "Cost Reduction", "Revenue Optimization", "Customer Experience", "Service Expansion",
   "LTL Shipping", "FTL Transport", "Refrigerated Logistics", "Hazmat Transportation",
   "Heavy Haul", "Expedited Shipping", "Specialized Freight", "Bulk Transport",
   "International Shipping", "Global Supply Chains", "Cross-Border Transport", "Import/Export",
   "Trade Compliance", "Customs Regulations", "Port Operations", "Global Logistics Trends",
   "Customer Service", "Relationship Management", "Shipper Insights", "Client Success Stories",
   "Service Improvements", "Client Retention", "Value-Added Services",
   "Conference Takeaways", "Industry Events", "Trade Shows", "Webinar Recaps",
   "Expert Interviews", "Industry Awards", "Case Studies"]

/-- The external effects one `generate_blog_post` call consumes:
the two `random.choice` draws and the `random.randint` draw, the
formatted current date, the outcome of each of the three independent
chat-completion calls (a returned message or a raised exception), and
the `html2text` conversion used when the content call succeeded. -/
structure GenOracle where
  authorIdx : Nat
  categoryIdx : Nat
  readTime : Nat
  dateStr : String
  metaResp : Except String String
  kwResp : Except String String
  contentResp : Except String String
  htmlText : String → String

/-- Placeholder author; never selected because the author index is
reduced modulo the (non-zero) table length. -/
def fallbackAuthor : Author := { name := "", position := "", bio := "", image := "" }

/-- Python slicing `s[:n]`. -/
def takeChars (s : String) (n : Nat) : String := ⟨s.data.take n⟩

/-- `generate_blog_post` (second revision, lines 1415-1533).  The three
chat-completion calls are made in order — meta description, keywords,
content — and none of the three call sites is wrapped in a handler, so
a raised error propagates out of the function (modelled by `Except`).
On success the post is assembled with `id = int(time.time())` taken
after content generation (`clock` is that reading). -/
def generate_blog_post (topic : Topic) (o : GenOracle) (clock : Nat) :
    Except String Post :=
  let author := AUTHORS.getD (o.authorIdx % AUTHORS.length) fallbackAuthor
  let category := BLOG_CATEGORIES.getD (o.categoryIdx % BLOG_CATEGORIES.length) ""
  match o.metaResp with
  | .error e => .error e
  | .ok m =>
    let meta_description := stripStr m
    match o.kwResp with
    | .error e => .error e
    | .ok kw =>
      let keywords := stripStr kw
      match o.contentResp with
      | .error e => .error e
      | .ok c =>
        let content := stripStr c
        let image_url := get_relevant_image topic
        let text_content := o.htmlText content
        let first_paragraph := stripStr (replaceNl (firstPara text_content))
        let excerpt :=
          if 200 < first_paragraph.length
          then takeChars first_paragraph 200 ++ "..."
          else takeChars first_paragraph 200
        .ok { id := clock, title := topic.title, excerpt := excerpt,
              date := o.dateStr, category := category, author := author.name,
              author_position := author.position, author_bio := author.bio,
              author_image := author.image,
              read_time := toString o.readTime ++ " min read",
              content := content, image := image_url,
              meta := { description := meta_description,
                        keywords := keywords } }

/-- The per-topic loop of `main`: `generate_blog_post`, then save and
render.  The loop body has no exception handler, so the first topic
whose generation raises aborts the whole run. -/
def runGeneration : List (Topic × GenOracle × Nat) → Except String (List Post)
  | [] => .ok []
  | (t, o, clk) :: rest =>
    match generate_blog_post t o clk with
    | .error e => .error e
    | .ok p =>
      match runGeneration rest with
      | .error e => .error e
      | .ok ps => .ok (p :: ps)

/-- C1 (amended): when the chat call for the meta description raises,
`generate_blog_post` propagates the exception — no fallback description
is substituted, no post is produced for the topic, and the per-topic
loop of `main` aborts the run with that error, so nothing is saved or
published. -/
theorem generate_blog_post_meta_error (t : Topic) (o : GenOracle) (clk : Nat)
    (e : String) (h : o.metaResp = Except.error e)
    (rest : List (Topic × GenOracle × Nat)) :
    generate_blog_post t o clk = Except.error e
    ∧ runGeneration ((t, o, clk) :: rest) = Except.error e := by
  have h1 : generate_blog_post t o clk = Except.error e := by
    unfold generate_blog_post
    rw [h]
  refine ⟨h1, ?_⟩
  rw [runGeneration, h1]

/-- A topic used for the error scenario. -/
def failTopic : Topic :=
  { title := "Diesel Prices Update", summary := "a summary",
    relevance := "a relevance", category := none }

/-- An oracle whose meta-description call raises. -/
def failOracle : GenOracle :=
  { authorIdx := 0, categoryIdx := 0, readTime := 7, dateStr := "May 01, 2025",
    metaResp := .error "rate limit", kwResp := .ok "kw",
    contentResp := .ok "body", htmlText := fun s => s }

/-- C1 (counterexample): a raising meta-description call is not caught
at the call site — `generate_blog_post` returns no post at all (so its
`meta.description` cannot be a summary-derived fallback) and the run
aborts rather than proceeding to save and publish. -/
theorem generate_blog_post_error_counterexample :
    generate_blog_post failTopic failOracle 1700000000
      = Except.error "rate limit"
    ∧ runGeneration [(failTopic, failOracle, 1700000000)]
      = Except.error "rate limit" :=
  ⟨rfl, rfl⟩

/-- C1 witness: the propagation theorem at a concrete topic and oracle. -/
theorem generate_blog_post_meta_error_witness :
    generate_blog_post failTopic failOracle 12345 = Except.error "rate limit"
    ∧ runGeneration [(failTopic, failOracle, 12345)]
      = Except.error "rate limit" :=
  generate_blog_post_meta_error failTopic failOracle 12345 "rate limit" rfl []

/-- A first topic generated in some second of wall-clock time. -/
def clashTopicA : Topic :=
  { title := "Fuel Hedging Strategies", summary := "s", relevance := "r",
    category := none }

/-- A second, different topic generated in the same second. -/
def clashTopicB : Topic :=
  { title := "Warehouse Robotics", summary := "s2", relevance := "r2",
    category := none }

/-- Oracle with all three chat calls succeeding. -/
def okOracleA : GenOracle :=
  { authorIdx := 0, categoryIdx := 0, readTime := 7, dateStr := "May 01, 2025",
    metaResp := .ok "desc A", kwResp := .ok "kw A",
    contentResp := .ok "content A", htmlText := fun s => s }

/-- Oracle for the second topic, also succeeding. -/
def okOracleB : GenOracle :=
  { authorIdx := 1, categoryIdx := 1, readTime := 8, dateStr := "May 01, 2025",
    metaResp := .ok "desc B", kwResp := .ok "kw B",
    contentResp := .ok "content B", htmlText := fun s => s }

/-- C7: the post id is `int(time.time())`, the whole-second wall-clock
reading.  Two distinct posts generated within the same second receive
the same id, contradicting the uniqueness the code itself announces
("Create unique post ID based on timestamp"). -/
theorem post_id_same_second_collision :
    (generate_blog_post clashTopicA okOracleA 1700000000).map Post.id
      = Except.ok 1700000000
    ∧ (generate_blog_post clashTopicB okOracleB 1700000000).map Post.id
      = Except.ok 1700000000
    ∧ (generate_blog_post clashTopicA okOracleA 1700000000).map Post.title
      ≠ (generate_blog_post clashTopicB okOracleB 1700000000).map Post.title := by
  refine ⟨by decide, by decide, by decide⟩

/-- The topics `random.sample(topics, k)` returns, once the sampler's
choice of positions is made explicit: the elements of the pool at the
chosen positions, in the order the sampler emitted them. -/
def sampleAt (topics : List Topic) (choice : List Nat) : List Topic :=
  choice.filterMap (fun i => topics[i]?)

/-- A legal outcome of `random.sample(topics, k)`: `k` distinct
in-range positions (sampling without replacement). -/
def ValidSample (topics : List Topic) (k : Nat) (choice : List Nat) : Prop :=
  choice.Nodup ∧ choice.length = k ∧ ∀ i ∈ choice, i < topics.length

/-- The topic-selection step of `main` (lines 950-954 and 1765-1769):
`random.sample` when the pool is strictly larger than
`POSTS_TO_GENERATE` (`k`), the whole pool otherwise. -/
def selectTopics (topics : List Topic) (k : Nat) (choice : List Nat) :
    List Topic :=
  if k < topics.length then sampleAt topics choice else topics

/-- A sample over in-range positions has one element per position. -/
theorem sampleAt_length (topics : List Topic) (choice : List Nat)
    (h : ∀ i ∈ choice, i < topics.length) :
    (sampleAt topics choice).length = choice.length := by
  induction choice with
  | nil => rfl
  | cons i rest ih =>
    have hi : i < topics.length := h i (List.mem_cons_self i rest)
    have hsome : topics[i]? = some topics[i] := List.getElem?_eq_getElem hi
    have hrest := ih (fun j hj => h j (List.mem_cons_of_mem i hj))
    simp only [sampleAt, List.filterMap_cons, hsome] at hrest ⊢
    simp [hrest]

/-- Sampled topics come from the pool. -/
theorem sampleAt_subset (topics : List Topic) (choice : List Nat) :
    ∀ t ∈ sampleAt topics choice, t ∈ topics := by
  intro t ht
  rcases List.mem_filterMap.mp ht with ⟨i, _, hi⟩
  rcases List.getElem?_eq_some.mp hi with ⟨hlen, rfl⟩
  exact List.getElem_mem hlen

/-- Distinct positions of a pool with pairwise-distinct titles carry
pairwise-distinct titles. -/
theorem sampleAt_titles_nodup (topics : List Topic) (choice : List Nat)
    (hc : choice.Nodup) (hr : ∀ i ∈ choice, i < topics.length)
    (ht : (topics.map Topic.title).Nodup) :
    ((sampleAt topics choice).map Topic.title).Nodup := by
  induction choice with
  | nil => simp [sampleAt]
  | cons i rest ih =>
    have hi : i < topics.length := hr i (List.mem_cons_self i rest)
    have hsome : topics[i]? = some topics[i] := List.getElem?_eq_getElem hi
    have hrest : ∀ j ∈ rest, j < topics.length :=
      fun j hj => hr j (List.mem_cons_of_mem i hj)
    have hnod := List.nodup_cons.mp hc
    simp only [sampleAt, List.filterMap_cons, hsome, List.map_cons,
      List.nodup_cons] at ih ⊢
    refine ⟨?_, ih hnod.2 hrest⟩
    intro hmem
    rcases List.mem_map.mp hmem with ⟨t, htmem, htitle⟩
    rcases List.mem_filterMap.mp htmem with ⟨j, hj, hjt⟩
    have hjlen : j < topics.length := hrest j hj
    have hjsome : topics[j]? = some topics[j] := List.getElem?_eq_getElem hjlen
    have hteq : t = topics[j] := by
      rw [hjt] at hjsome
      exact Option.some.inj hjsome
    subst hteq
    have htit : (topics.map Topic.title)[i]? = (topics.map Topic.title)[j]? := by
      rw [List.getElem?_map, List.getElem?_map, hsome, hjsome]
      simpa using htitle.symm
    have hij : i = j :=
      List.getElem?_inj (by simpa using hi) ht htit
    exact hnod.1 (hij ▸ hj)

/-- C6 (amended): topic selection returns the whole pool when it does
not exceed the requested count; when it does, the returned list is a
without-replacement sample of exactly the requested size drawn from the
pool, and it has no duplicate titles provided the pool itself has no
duplicate titles.  (That the sampler draws uniformly is a property of
Python's `random.sample`, outside this embedding.) -/
theorem selectTopics_spec (topics : List Topic) (k : Nat) (choice : List Nat)
    (hv : ValidSample topics k choice) :
    (topics.length ≤ k → selectTopics topics k choice = topics)
    ∧ (k < topics.length →
        (selectTopics topics k choice).length = k
        ∧ (∀ t ∈ selectTopics topics k choice, t ∈ topics)
        ∧ ((topics.map Topic.title).Nodup →
            ((selectTopics topics k choice).map Topic.title).Nodup)) := by
  obtain ⟨hnd, hlen, hrange⟩ := hv
  constructor
  · intro hle
    have : ¬ k < topics.length := Nat.not_lt.mpr hle
    simp [selectTopics, this]
  · intro hlt
    have hsel : selectTopics topics k choice = sampleAt topics choice := by
      simp [selectTopics, hlt]
    rw [hsel]
    exact ⟨by rw [sampleAt_length topics choice hrange, hlen],
      sampleAt_subset topics choice,
      fun ht => sampleAt_titles_nodup topics choice hnd hrange ht⟩

/-- A pool of four topics of which two share a title. -/
def poolDup : List Topic :=
  [{ title := "Fleet Outlook", summary := "s1", relevance := "r1", category := none },
   { title := "Fleet Outlook", summary := "s2", relevance := "r2", category := none },
   { title := "Driver Pay", summary := "s3", relevance := "r3", category := none },
   { title := "Fuel Hedging", summary := "s4", relevance := "r4", category := none }]

/-- C6 (counterexample): over a pool with a repeated title, a legal
without-replacement draw of 3 of the 4 topics returns two topics with
the same title, so the selected subset is not duplicate-title-free as
claimed. -/
theorem selectTopics_dup_title_counterexample :
    ValidSample poolDup 3 [0, 1, 2]
    ∧ 3 < poolDup.length
    ∧ ¬ ((selectTopics poolDup 3 [0, 1, 2]).map Topic.title).Nodup := by
  refine ⟨⟨by decide, rfl, by decide⟩, by decide, by decide⟩

/-- C6 witness: the selection theorem at a concrete pool and draw. -/
theorem selectTopics_spec_witness :
    (poolDup.length ≤ 1 → selectTopics poolDup 1 [2] = poolDup)
    ∧ (1 < poolDup.length →
        (selectTopics poolDup 1 [2]).length = 1
        ∧ (∀ t ∈ selectTopics poolDup 1 [2], t ∈ poolDup)
        ∧ ((poolDup.map Topic.title).Nodup →
            ((selectTopics poolDup 1 [2]).map Topic.title).Nodup)) :=
  selectTopics_spec poolDup 1 [2] ⟨by decide, rfl, by decide⟩

/-- A scraped article candidate: the text content extracted by the
CSS-like selectors (defaults already applied: missing titles become
the literal placeholder, missing summaries the empty string). -/
structure RawArticle where
  title : String
  summary : String
deriving DecidableEq

/-- A topic record produced by the scraping tier. -/
structure NewsTopic where
  title : String
  summary : String
  relevance : String
deriving DecidableEq

/-- The relevance keyword set both revisions use for trucking topics. -/
def truckTerms : List String :=
  ["truck", "fleet", "haul", "freight", "driver", "diesel", "semi", "transport"]

/-- The keyword filter of the first revision's scrape tier: some term
occurs in the lowercased title or summary. -/
def isTruckRelevant (a : RawArticle) : Bool :=
  truckTerms.any (fun t =>
    strContains (lowerStr a.title) t || strContains (lowerStr a.summary) t)

/-- The generated relevance line of the first revision's scrape tier. -/
def scrapeRelevanceV1 (year : Nat) : String :=
  "This topic is relevant to semi-truck operators and fleet managers because it addresses current industry challenges and opportunities in "
    ++ toString year ++ "."

/-- Article record built by the first revision's scrape tier. -/
def mkScrapedV1 (year : Nat) (a : RawArticle) : NewsTopic :=
  { title := a.title, summary := a.summary, relevance := scrapeRelevanceV1 year }

/-- Per-site processing of the first revision (lines 307-353): top 3
articles, keyword-filtered. -/
def scrapeSiteV1 (year : Nat) (arts : List RawArticle) : List NewsTopic :=
  ((arts.take 3).filter isTruckRelevant).map (mkScrapedV1 year)

/-- All articles the first revision collects across its site list. -/
def collectV1 (year : Nat) (sites : List (List RawArticle)) : List NewsTopic :=
  sites.foldl (fun acc s => acc ++ scrapeSiteV1 year s) []

/-- The first revision's scrape tier: accept when at least 3 filtered
articles were collected across all sites combined, else fall through
(`none`). -/
def scrapeTierV1 (year : Nat) (sites : List (List RawArticle)) :
    Option (List NewsTopic) :=
  if 3 ≤ (collectV1 year sites).length then some (collectV1 year sites)
  else none

/-- The generated relevance line for the first site of the second
revision's scrape tier. -/
def scrapeRelevanceTT (year : Nat) : String :=
  "This topic is relevant to logistics professionals because it addresses current industry challenges and opportunities in "
    ++ toString year ++ "."

/-- The generated relevance line for the backup site of the second
revision's scrape tier. -/
def scrapeRelevanceLM (year : Nat) : String :=
  "This industry development is important for logistics companies to consider when planning their operations and strategies in "
    ++ toString year ++ "."

/-- Article record built from the first site (second revision). -/
def mkScrapedTT (year : Nat) (a : RawArticle) : NewsTopic :=
  { title := a.title, summary := a.summary, relevance := scrapeRelevanceTT year }

/-- Article record built from the backup site (second revision). -/
def mkScrapedLM (year : Nat) (a : RawArticle) : NewsTopic :=
  { title := a.title, summary := a.summary, relevance := scrapeRelevanceLM year }

/-- The articles the second revision's scrape tier (lines 1268-1323)
collects: top 5 of the first site, unfiltered, plus — only when that
left fewer than 3 — the top 5 of the backup site, also unfiltered. -/
def collectV2 (year : Nat) (site1 site2 : List RawArticle) : List NewsTopic :=
  let n1 := (site1.take 5).map (mkScrapedTT year)
  if n1.length < 3 then n1 ++ (site2.take 5).map (mkScrapedLM year) else n1

/-- The second revision's scrape tier: accept whenever at least one
article was collected (`len(news_articles) > 0`), with no keyword
filter anywhere. -/
def scrapeTierV2 (year : Nat) (site1 site2 : List RawArticle) :
    Option (List NewsTopic) :=
  if 0 < (collectV2 year site1 site2).length then some (collectV2 year site1 site2)
  else none

/-- Everything the first revision collects comes from a raw article
that passed the keyword filter. -/
theorem mem_collectV1_aux (year : Nat) (a : NewsTopic)
    (sites : List (List RawArticle)) :
    ∀ acc, a ∈ sites.foldl (fun acc s => acc ++ scrapeSiteV1 year s) acc →
      a ∈ acc ∨ ∃ r, isTruckRelevant r = true ∧ a = mkScrapedV1 year r := by
  induction sites with
  | nil => intro acc h; exact Or.inl h
  | cons s ss ih =>
    intro acc h
    rcases ih _ h with hmem | hex
    · rcases List.mem_append.mp hmem with h1 | h2
      · exact Or.inl h1
      · right
        rcases List.mem_map.mp h2 with ⟨r, hr, rfl⟩
        exact ⟨r, (List.mem_filter.mp hr).2, rfl⟩
    · exact Or.inr hex

/-- A non-empty first site makes the second revision collect something. -/
theorem collectV2_pos_left (year : Nat) (a : RawArticle)
    (as site2 : List RawArticle) :
    0 < (collectV2 year (a :: as) site2).length := by
  unfold collectV2
  dsimp only
  split
  · simp [List.length_take]
  · simp [List.length_take]

/-- With an empty first site, a non-empty backup site still makes the
second revision collect something. -/
theorem collectV2_pos_right (year : Nat) (b : RawArticle)
    (bs : List RawArticle) :
    0 < (collectV2 year [] (b :: bs)).length := by
  unfold collectV2
  simp [List.length_take]

/-- The second revision's tier falls through exactly when both sites
yielded nothing at all. -/
theorem scrapeTierV2_none_iff (year : Nat) (site1 site2 : List RawArticle) :
    scrapeTierV2 year site1 site2 = none ↔ site1 = [] ∧ site2 = [] := by
  cases site1 with
  | cons a as =>
    have hp := collectV2_pos_left year a as site2
    simp [scrapeTierV2, hp]
  | nil =>
    cases site2 with
    | cons b bs =>
      have hp := collectV2_pos_right year b bs
      simp [scrapeTierV2, hp]
    | nil => simp [scrapeTierV2, collectV2]

/-- C8 (amended): in the first revision the scrape tier keeps only
keyword-relevant entries and is accepted only with at least 3 entries
collected across all sites (fewer fall through); in the second
revision — the definition that overrides it — no keyword filter is
applied (every top-5 entry of the first site is kept) and the tier is
accepted whenever at least one entry was collected. -/
theorem scrapeTier_spec :
    (∀ (year : Nat) (sites : List (List RawArticle)) (arts : List NewsTopic),
        scrapeTierV1 year sites = some arts →
          3 ≤ arts.length
          ∧ ∀ a ∈ arts, ∃ r, isTruckRelevant r = true ∧ a = mkScrapedV1 year r)
    ∧ (∀ (year : Nat) (sites : List (List RawArticle)),
        (collectV1 year sites).length < 3 → scrapeTierV1 year sites = none)
    ∧ (∀ (year : Nat) (site1 site2 : List RawArticle),
        scrapeTierV2 year site1 site2 = none ↔ site1 = [] ∧ site2 = [])
    ∧ (∀ (year : Nat) (site1 site2 : List RawArticle)
        (arts : List NewsTopic), scrapeTierV2 year site1 site2 = some arts →
          ∀ a ∈ site1.take 5, mkScrapedTT year a ∈ arts) := by
  refine ⟨?_, ?_, ?_, ?_⟩
  · intro year sites arts h
    unfold scrapeTierV1 at h
    split at h
    · next hge =>
      obtain rfl : collectV1 year sites = arts := Option.some.inj h
      refine ⟨hge, ?_⟩
      intro a ha
      rcases mem_collectV1_aux year a sites [] ha with hnil | hex
      · cases hnil
      · exact hex
    · cases h
  · intro year sites hlt
    unfold scrapeTierV1
    rw [if_neg (by omega)]
  · intro year site1 site2
    exact scrapeTierV2_none_iff year site1 site2
  · intro year site1 site2 arts h
    unfold scrapeTierV2 at h
    split at h
    · obtain rfl : collectV2 year site1 site2 = arts := Option.some.inj h
      intro a ha
      unfold collectV2
      dsimp only
      split
      · exact List.mem_append.mpr (Or.inl (List.mem_map_of_mem _ ha))
      · exact List.mem_map_of_mem _ ha
    · cases h

/-- A scraped article with no trucking keyword anywhere. -/
def offTopicRaw : RawArticle :=
  { title := "Port congestion eases", summary := "Container volumes dip" }

/-- C8 (counterexample): the operative (second-revision) scrape tier
accepts a single collected entry that matches no relevance keyword —
the claimed keyword filter and the ≥3 acceptance threshold are absent
from it. -/
theorem scrapeTier_counterexample :
    isTruckRelevant offTopicRaw = false
    ∧ scrapeTierV2 2025 [offTopicRaw] []
        = some [mkScrapedTT 2025 offTopicRaw]
    ∧ (1 : Nat) < 3 := by
  refine ⟨by decide, by decide, by decide⟩

/-- C8 witness: the tier specification applied to a concrete site list
that collects fewer than 3 relevant articles. -/
theorem scrapeTier_spec_witness :
    scrapeTierV1 2025 [[offTopicRaw]] = none :=
  scrapeTier_spec.2.1 2025 [[offTopicRaw]] (by decide)

end BlogBot
